import Mathlib

/-!
Verification development for the mongoose-schema-extractor core
(`src/lib/extractor.ts`, `src/lib/formatter.ts`, `src/index.ts`).

The extractor walks in-memory mongoose schema descriptors.  Schema objects
are heap objects identified by JavaScript object identity; we model the heap
as a `Store` mapping numeric identities to schema records, and the
`WeakSet` of visited schemas as a `List Nat` of identities.  Field
descriptors produced by the walker are JavaScript objects with a closed set
of possible keys; we model them as a record of optional attributes
(`Attrs`) plus the three possible nested payloads (`items`, `properties`,
`values`).  JavaScript truthiness tests from the source are modelled
explicitly (`truthyInt`, `truthyStr`, ...).  The recursive walk is embedded
with an explicit fuel argument (structural recursion on fuel) and a wrapper
supplying the fuel that the source's depth guard makes sufficient.
-/

/-- JS truthiness of an optional number (`0` and `undefined` are falsy). -/
def truthyInt : Option Int → Bool
  | some v => v != 0
  | none => false

/-- JS truthiness of an optional string (`""` and `undefined` are falsy). -/
def truthyStr : Option String → Bool
  | some s => s != ""
  | none => false

/-- JS `x || d` on an optional string (`undefined` and `""` fall back). -/
def jsOrStr (o : Option String) (d : String) : String :=
  match o with
  | some s => if s = "" then d else s
  | none => d

/-- JS template-literal rendering of a possibly-undefined string value. -/
def jsShow (o : Option String) : String :=
  match o with
  | some s => s
  | none => "undefined"

/-- JS `v || d` rendering of an optional number (`0` is falsy). -/
def jsNumOr (o : Option Int) (d : String) : String :=
  match o with
  | some v => if v = 0 then d else toString v
  | none => d

/-- A primitive JS value as stored in a field descriptor's `defaultValue`. -/
inductive PrimVal where
  | str (s : String)
  | num (n : Int)
  | boolean (b : Bool)
  deriving DecidableEq, Repr

/-- A mongoose `default` option: a literal or a function (with optional name). -/
inductive DefaultVal where
  | strVal (s : String)
  | numVal (n : Int)
  | boolVal (b : Bool)
  | fnVal (name : Option String)
  deriving DecidableEq, Repr

/-- A mongoose `index` option value (`true`/`false` or a string form). -/
inductive IdxVal where
  | b (v : Bool)
  | s (v : String)
  deriving DecidableEq, Repr

/-- JS truthiness of an optional index value. -/
def truthyIdx : Option IdxVal → Bool
  | some (.b v) => v
  | some (.s v) => v != ""
  | none => false

/-- A mongoose `match` option: a regex or a `[regex, message]` pair.
`String(regex)` is modelled as the stored string. -/
inductive MatchVal where
  | re (s : String)
  | pair (s msg : String)
  deriving DecidableEq, Repr

/-- The pattern the extractor stores for a `match` option
(`Array.isArray(match) ? String(match[0]) : String(match)`). -/
def matchSource : MatchVal → String
  | .re s => s
  | .pair s _ => s

/-- A declared validator on a schema type (`v.type`, `v.message`, `v.validator`). -/
structure Validator where
  vtype : Option String := none
  message : Option String := none
  hasFn : Bool := false
  deriving DecidableEq, Repr

/-- A serialized validator descriptor as produced by the walker. -/
structure VInfo where
  vtype : Option String := none
  message : String := ""
  validatorMark : Option String := none
  deriving DecidableEq, Repr

/-- The scalar attributes a field descriptor produced by the walker can
carry (JS object keys, absent keys modelled as `none`/`false`). -/
structure Attrs where
  type : Option String := none
  note : Option String := none
  enum : Option (List String) := none
  enumCount : Option Nat := none
  minLength : Option Int := none
  maxLength : Option Int := none
  pattern : Option String := none
  lowercase : Bool := false
  uppercase : Bool := false
  trim : Bool := false
  min : Option Int := none
  max : Option Int := none
  minDate : Option Int := none
  maxDate : Option Int := none
  ref : Option String := none
  required : Bool := false
  hasDefault : Bool := false
  defaultValue : Option PrimVal := none
  unique : Bool := false
  indexed : Option IdxVal := none
  sparse : Bool := false
  select : Option Bool := none
  immutable : Bool := false
  hasValidators : Bool := false
  validatorCount : Option Nat := none
  validators : Option (List VInfo) := none
  circular : Bool := false
  propertyCount : Option Nat := none
  computed : Bool := false
  auto : Bool := false
  deriving DecidableEq, Repr

/-- A field descriptor: scalar attributes plus the nested payloads
`items` (Array), `properties` (Object) and `values` (Map). -/
inductive Info where
  | node (a : Attrs) (items : Option Info)
      (properties : Option (List (String × Info))) (values : Option Info) : Info

def Info.attrs : Info → Attrs
  | .node a _ _ _ => a

def Info.items : Info → Option Info
  | .node _ i _ _ => i

def Info.properties : Info → Option (List (String × Info))
  | .node _ _ p _ => p

def Info.values : Info → Option Info
  | .node _ _ _ v => v

/-- `info.items.ref = r` (assignment onto the items descriptor). -/
def Info.withRef : Info → Option String → Info
  | .node a i p v, r => .node { a with ref := r } i p v

/-- The `.options` bag of a mongoose schema type. -/
structure STOptions where
  ref : Option String := none
  minlength : Option Int := none
  maxlength : Option Int := none
  matchPat : Option MatchVal := none
  lowercase : Bool := false
  uppercase : Bool := false
  trim : Bool := false
  min : Option Int := none
  max : Option Int := none
  enum : Option (List String) := none
  required : Bool := false
  defaultVal : Option DefaultVal := none
  unique : Bool := false
  index : Option IdxVal := none
  sparse : Bool := false
  select : Option Bool := none
  immutable : Bool := false
  deriving DecidableEq, Repr

/-- A mongoose schema type object (`schemaType`): its `instance` tag,
options, enum values, required flag, validators, array `caster`
(or `$embeddedSchemaType`), embedded `schema` (heap identity) and map
value type (`schemaType`/`$__schemaType`). -/
inductive SchemaType where
  | mk (instanceN : Option String) (options : STOptions) (enumValues : List String)
      (isRequired : Bool) (validators : List Validator) (caster : Option SchemaType)
      (schemaRef : Option Nat) (valueType : Option SchemaType) : SchemaType

def SchemaType.instanceN : SchemaType → Option String
  | .mk i _ _ _ _ _ _ _ => i

def SchemaType.options : SchemaType → STOptions
  | .mk _ o _ _ _ _ _ _ => o

def SchemaType.enumValues : SchemaType → List String
  | .mk _ _ e _ _ _ _ _ => e

def SchemaType.isRequired : SchemaType → Bool
  | .mk _ _ _ r _ _ _ _ => r

def SchemaType.validators : SchemaType → List Validator
  | .mk _ _ _ _ v _ _ _ => v

def SchemaType.caster : SchemaType → Option SchemaType
  | .mk _ _ _ _ _ c _ _ => c

def SchemaType.schemaRef : SchemaType → Option Nat
  | .mk _ _ _ _ _ _ s _ => s

def SchemaType.valueType : SchemaType → Option SchemaType
  | .mk _ _ _ _ _ _ _ v => v

/-- A schema object: its `paths` registry, `options.timestamps` flag and
`virtuals` names. -/
structure SchemaRec where
  paths : List (String × SchemaType) := []
  timestamps : Bool := false
  virtuals : List String := []

/-- The heap of schema objects, keyed by object identity. -/
abbrev Store := List (Nat × SchemaRec)

def storeGet (store : Store) (sid : Nat) : SchemaRec :=
  (((store.find? (fun p => p.1 == sid)).map (fun p => p.2))).getD {}

/-- A mongoose model: exposes a `schema` (or not, in which case
`extractSchemas` skips it). -/
structure MModel where
  schemaId : Option Nat := none
  deriving DecidableEq, Repr

/-- The walker option flags (`includeFlags` in `src/index.ts`); `depth = 0`
models both an absent and a zero `depth` (both falsy in JS). -/
structure WalkOpts where
  includeId : Bool := false
  includeTimestamps : Bool := false
  includeVirtuals : Bool := false
  includeIndexes : Bool := false
  includeValidators : Bool := false
  includeDefaults : Bool := false
  depth : Nat := 0
  deriving DecidableEq, Repr

/-- The effective depth bound: `options.depth || 10` (JS `0` is falsy). -/
def effDepth (o : WalkOpts) : Nat :=
  if o.depth = 0 then 10 else o.depth

/-- JS object assignment `m[k] = v`: overwrite in place or append. -/
def jsSet {α : Type} : List (String × α) → String → α → List (String × α)
  | [], k, v => [(k, v)]
  | (k0, v0) :: rest, k, v =>
    if k0 = k then (k0, v) :: rest else (k0, v0) :: jsSet rest k v

/-- JS object key lookup. -/
def lookupKey {α : Type} (m : List (String × α)) (k : String) : Option α :=
  (m.find? (fun p => p.1 == k)).map (fun p => p.2)

/-- The uniform post-processing applied to every field descriptor
(`extractor.ts` lines 165-206): required, defaults, unique, indexes,
select, immutable and validators.  Conditional assignments are written as
one record update; untouched attributes keep their branch values. -/
def applyCommonOptions (st : SchemaType) (o : WalkOpts) (a : Attrs) : Attrs :=
  { a with
    required := a.required || (st.options.required || st.isRequired),
    hasDefault := a.hasDefault || (o.includeDefaults && st.options.defaultVal.isSome),
    defaultValue :=
      if o.includeDefaults then
        match st.options.defaultVal with
        | some (.strVal s) => some (.str s)
        | some (.numVal n) => some (.num n)
        | some (.boolVal b) => some (.boolean b)
        | some (.fnVal nm) =>
          some (.str (match nm with
            | some n => if n = "" then "[Function]" else "[Function " ++ n ++ "]"
            | none => "[Function]"))
        | none => a.defaultValue
      else a.defaultValue,
    unique := a.unique || st.options.unique,
    indexed :=
      if o.includeIndexes && truthyIdx st.options.index then st.options.index
      else a.indexed,
    sparse := a.sparse || (o.includeIndexes && st.options.sparse),
    select := match st.options.select with
      | some b => some b
      | none => a.select,
    immutable := a.immutable || st.options.immutable,
    hasValidators :=
      a.hasValidators || (o.includeValidators && st.validators.length > 0),
    validatorCount :=
      if o.includeValidators && st.validators.length > 0 then
        some st.validators.length
      else a.validatorCount,
    validators :=
      if o.includeValidators && st.validators.length > 0 then
        some (st.validators.map (fun v =>
          { vtype := v.vtype,
            message := match v.message with
              | some m => if m = "" then "Validation failed" else m
              | none => "Validation failed",
            validatorMark := if v.hasFn then some "[Function]" else none }))
      else a.validators }

/-- The `String` branch of the instance switch. -/
def stringAttrs (st : SchemaType) : Attrs :=
  { type := some "String",
    enum := if st.enumValues ≠ [] then some st.enumValues else none,
    enumCount := if st.enumValues ≠ [] then some st.enumValues.length else none,
    minLength := if truthyInt st.options.minlength then st.options.minlength else none,
    maxLength := if truthyInt st.options.maxlength then st.options.maxlength else none,
    pattern := match st.options.matchPat with
      | some mv => some (matchSource mv)
      | none => none,
    lowercase := st.options.lowercase,
    uppercase := st.options.uppercase,
    trim := st.options.trim }

/-- The `Number` branch of the instance switch. -/
def numberAttrs (st : SchemaType) : Attrs :=
  { type := some "Number",
    min := st.options.min,
    max := st.options.max,
    enum := if st.enumValues ≠ [] then some st.enumValues else st.options.enum }

/-- The `Date` branch of the instance switch. -/
def dateAttrs (st : SchemaType) : Attrs :=
  { type := some "Date",
    minDate := if truthyInt st.options.min then st.options.min else none,
    maxDate := if truthyInt st.options.max then st.options.max else none }

/-- The `ObjectId` branch of the instance switch. -/
def objectIdAttrs (st : SchemaType) : Attrs :=
  { type := some "ObjectId",
    ref := if truthyStr st.options.ref then st.options.ref else none }

/-- One step of the loop over a nested schema's paths in the
embedded-document branch (`extractor.ts` lines 142-146): skip `_id`
(unless `includeId`) and `__v`, otherwise extract and record the field,
threading the visited set. -/
def nestedStep (wopts : WalkOpts) (rec : SchemaType → String → List Nat → Info × List Nat)
    (acc : List (String × Info) × List Nat) (pp : String × SchemaType) :
    List (String × Info) × List Nat :=
  if pp.1 = "_id" && !wopts.includeId then acc
  else if pp.1 = "__v" then acc
  else
    let q := rec pp.2 pp.1 acc.2
    (acc.1 ++ [(pp.1, q.1)], q.2)

/-- The instance-tag switch of `extractCompletePathInfo` (`extractor.ts`
lines 59-163), with the recursive calls — all made at `depth + 1` —
abstracted as `rec1`. -/
def pathInfoCases (store : Store) (wopts : WalkOpts) (st : SchemaType) (vis : List Nat)
    (rec1 : SchemaType → String → List Nat → Info × List Nat) : Info × List Nat :=
  let instanceN := if st.instanceN = some "ObjectID" then some "ObjectId" else st.instanceN
  match instanceN with
  | some ty =>
    if ty = "String" then
      (Info.node (applyCommonOptions st wopts (stringAttrs st)) none none none, vis)
    else if ty = "Number" then
      (Info.node (applyCommonOptions st wopts (numberAttrs st)) none none none, vis)
    else if ty = "Date" then
      (Info.node (applyCommonOptions st wopts (dateAttrs st)) none none none, vis)
    else if ty = "Boolean" then
      (Info.node (applyCommonOptions st wopts { type := some "Boolean" }) none none none, vis)
    else if ty = "ObjectId" then
      (Info.node (applyCommonOptions st wopts (objectIdAttrs st)) none none none, vis)
    else if ty = "Decimal128" then
      (Info.node (applyCommonOptions st wopts { type := some "Decimal128" }) none none none, vis)
    else if ty = "Buffer" then
      (Info.node (applyCommonOptions st wopts { type := some "Buffer" }) none none none, vis)
    else if ty = "Mixed" then
      (Info.node (applyCommonOptions st wopts { type := some "Mixed" }) none none none, vis)
    else if ty = "Array" then
      match st.caster with
      | some item =>
        let r := rec1 item "" vis
        let itemInfo :=
          if truthyStr item.options.ref then r.1.withRef item.options.ref else r.1
        (Info.node (applyCommonOptions st wopts { type := some "Array" })
          (some itemInfo) none none, r.2)
      | none =>
        (Info.node (applyCommonOptions st wopts { type := some "Array" }) none none none, vis)
    else if ty = "Embedded" ∨ ty = "Document" then
      match st.schemaRef with
      | some sid =>
        if vis.contains sid then
          (Info.node (applyCommonOptions st wopts { type := some "Object", circular := true })
            none none none, vis)
        else
          let r := (storeGet store sid).paths.foldl (nestedStep wopts rec1) ([], sid :: vis)
          (Info.node
            (applyCommonOptions st wopts
              { type := some "Object", propertyCount := some r.1.length })
            none (some r.1) none, r.2)
      | none =>
        (Info.node (applyCommonOptions st wopts { type := some "Object" }) none none none, vis)
    else if ty = "Map" then
      match st.valueType with
      | some vt =>
        let r := rec1 vt "" vis
        (Info.node (applyCommonOptions st wopts { type := some "Map" }) none none (some r.1), r.2)
      | none =>
        (Info.node (applyCommonOptions st wopts { type := some "Map" }) none none none, vis)
    else
      (Info.node (applyCommonOptions st wopts { type := some (jsOrStr (some ty) "Mixed") })
        none none none, vis)
  | none =>
    (Info.node (applyCommonOptions st wopts { type := some (jsOrStr none "Mixed") })
      none none none, vis)

/-- `extractCompletePathInfo`, fuel-indexed.  The fuel only bounds the
recursion depth; `extractCompletePathInfo` below supplies fuel that the
source's depth guard (`depth > options.depth || 10` returns immediately)
makes sufficient, see `extractPathInfoF_fuel_irrel`.  The visited set is
threaded through and returned, modelling the shared mutable `WeakSet`. -/
def extractPathInfoF (store : Store) (wopts : WalkOpts) :
    Nat → SchemaType → String → Nat → List Nat → Info × List Nat
  | 0, _, _, _, vis => (Info.node {} none none none, vis)
  | fuel + 1, st, _pathName, depth, vis =>
    if depth > effDepth wopts then
      (Info.node { type := some "Mixed", note := some "Max depth reached" } none none none, vis)
    else
      pathInfoCases store wopts st vis
        (fun st2 nm2 vis2 => extractPathInfoF store wopts fuel st2 nm2 (depth + 1) vis2)

/-- Fuel sufficient for a walk starting at `depth`: the depth guard stops
every chain of recursive calls after at most `effDepth + 2 - depth` steps. -/
def fuelFor (o : WalkOpts) (depth : Nat) : Nat :=
  Nat.max 1 (effDepth o + 2 - depth)

/-- `extractCompletePathInfo(schemaType, pathName, depth, options, visited)`
from `src/lib/extractor.ts`, with the heap passed explicitly. -/
def extractCompletePathInfo (st : SchemaType) (pathName : String) (depth : Nat)
    (opts : WalkOpts) (visited : List Nat) (store : Store) : Info × List Nat :=
  extractPathInfoF store opts (fuelFor opts depth) st pathName depth visited

/-- The `{type: Virtual, computed: true}` descriptor. -/
def virtualInfo : Info :=
  Info.node { type := some "Virtual", computed := true } none none none

/-- The `{type: Date, auto: true}` timestamp descriptor. -/
def tsAutoInfo : Info :=
  Info.node { type := some "Date", auto := true } none none none

/-- A model-level extraction result: either the field mapping, or the
root-level `{type: 'Circular', description: ...}` record. -/
inductive ModelSchema where
  | fields (fs : List (String × Info))
  | circularRoot (description : String)

/-- The loop over `schema.paths` in `extractCompleteMongooseSchema`. -/
def topFields (store : Store) (opts : WalkOpts) :
    List (String × SchemaType) → List Nat → List (String × Info) × List Nat
  | [], vis => ([], vis)
  | (p, st) :: rest, vis =>
    if p = "_id" && !opts.includeId then topFields store opts rest vis
    else if p = "__v" then topFields store opts rest vis
    else
      let r := extractCompletePathInfo st p 0 opts vis store
      let rr := topFields store opts rest r.2
      ((p, r.1) :: rr.1, rr.2)

/-- `extractCompleteMongooseSchema(model, options, visited)` from
`src/lib/extractor.ts` (the model's `schema` passed as its identity). -/
def extractCompleteMongooseSchema (sid : Nat) (opts : WalkOpts)
    (visited : List Nat) (store : Store) : ModelSchema × List Nat :=
  if visited.contains sid then
    (.circularRoot "Circular reference detected", visited)
  else
    let visited := sid :: visited
    let sch := storeGet store sid
    let r := topFields store opts sch.paths visited
    let fields := r.1
    let fields :=
      if opts.includeVirtuals then
        sch.virtuals.foldl (fun fs vn =>
          if vn = "id" && !opts.includeId then fs
          else jsSet fs vn virtualInfo) fields
      else fields
    let fields :=
      if opts.includeTimestamps && sch.timestamps then
        jsSet (jsSet fields "createdAt" tsAutoInfo) "updatedAt" tsAutoInfo
      else fields
    (.fields fields, r.2)

/-! ## Format renderers (`src/lib/formatter.ts`) -/

/-- ASCII lower-casing of one character (`toLowerCase` restricted to the
ASCII names the formatter table uses). -/
def lowerChar (c : Char) : Char :=
  if 'A' ≤ c ∧ c ≤ 'Z' then Char.ofNat (c.toNat + 32) else c

/-- `String.prototype.toLowerCase` on ASCII strings. -/
def toLowerStr (s : String) : String :=
  String.mk (s.data.map lowerChar)

/-- `split(sep)` for a one-character separator. -/
def splitParts (sep : Char) : List Char → List (List Char)
  | [] => [[]]
  | c :: rest =>
    if c = sep then [] :: splitParts sep rest
    else
      match splitParts sep rest with
      | p :: ps => (c :: p) :: ps
      | [] => [[c]]

/-- Whitespace for `trim` (the compact renderer only ever trims spaces and
newlines). -/
def isWsChar (c : Char) : Bool :=
  c = ' ' || c = '\n' || c = '\t' || c = '\r'

/-- `String.prototype.trim`. -/
def trimStr (s : String) : String :=
  String.mk (((s.data.dropWhile isWsChar).reverse.dropWhile isWsChar).reverse)

/-- Substring check over character lists: does `hay` start with `needle`? -/
def leadsWith : List Char → List Char → Bool
  | [], _ => true
  | _ :: _, [] => false
  | a :: as, b :: bs => a == b && leadsWith as bs

/-- Does `needle` occur somewhere in `hay`? -/
def subOccurs (needle : List Char) : List Char → Bool
  | [] => leadsWith needle []
  | c :: rest => leadsWith needle (c :: rest) || subOccurs needle rest

/-- `s` contains `sub` as a substring. -/
def strContains (s sub : String) : Bool :=
  subOccurs sub.data s.data

/-- How a field mapping looks to the renderers.  A root-level `Circular`
result is a plain JS object `{type: 'Circular', description: ...}` whose
values are strings; every property access the renderers perform on a JS
string yields `undefined`, so it behaves exactly like two descriptors with
no attributes at all. -/
def ModelSchema.asFields : ModelSchema → List (String × Info)
  | .fields fs => fs
  | .circularRoot _ =>
    [("type", Info.node {} none none none), ("description", Info.node {} none none none)]

/-- `formatJSON`: the identity renderer. -/
def formatJSON (schemas : List (String × ModelSchema)) : List (String × ModelSchema) :=
  schemas

/-- `replace(/\\(.)/g, '$1')`: drop a backslash before any non-newline char. -/
def unescapeChars : List Char → List Char
  | [] => []
  | c :: rest =>
    if c = '\\' then
      match rest with
      | d :: rest2 =>
        if d = '\n' then c :: d :: unescapeChars rest2 else d :: unescapeChars rest2
      | [] => [c]
    else c :: unescapeChars rest

def unescapePattern (s : String) : String :=
  String.mk (unescapeChars s.data)

/-- `JSON.stringify` on a primitive value (strings quoted). -/
def jsonStringifyPrim : PrimVal → String
  | .str s => "\x22" ++ s ++ "\x22"
  | .num n => toString n
  | .boolean b => if b then "true" else "false"

/-- The default-value clause text of the compact renderer (strings as-is,
others via `JSON.stringify`). -/
def compactDefaultStr : PrimVal → String
  | .str s => s
  | .num n => toString n
  | .boolean b => if b then "true" else "false"

/-- The comma-joined constraint list of the compact renderer, in source
order (`formatter.ts` lines 45-87). -/
def compactConstraints (f : Attrs) : List String :=
  (if f.required then ["required"] else [])
  ++ (if f.unique then ["unique"] else [])
  ++ (if truthyIdx f.indexed then ["indexed"] else [])
  ++ (if f.lowercase then ["lowercase"] else [])
  ++ (if f.uppercase then ["uppercase"] else [])
  ++ (if f.trim then ["trim"] else [])
  ++ (match f.minLength, f.maxLength with
      | some a, some b => [toString a ++ "-" ++ toString b ++ " chars"]
      | some a, none => ["min " ++ toString a ++ " chars"]
      | none, some b => ["max " ++ toString b ++ " chars"]
      | none, none => [])
  ++ (match f.min, f.max with
      | some a, some b => ["range: " ++ toString a ++ "-" ++ toString b]
      | some a, none => ["min: " ++ toString a]
      | none, some b => ["max: " ++ toString b]
      | none, none => [])
  ++ (match f.pattern with
      | some p => if p = "" then [] else ["pattern: " ++ unescapePattern p]
      | none => [])
  ++ (match f.enum with
      | some es => ["enum: [" ++ String.intercalate ", " es ++ "]"]
      | none => [])
  ++ (if f.sparse then ["sparse"] else [])
  ++ (if f.immutable then ["immutable"] else [])
  ++ (if f.select = some false then ["not selected"] else [])
  ++ (if f.auto then ["auto-generated"] else [])

/-- One indented line for a sub-field of an embedded object
(`formatter.ts` lines 112-132; note `maxLength` before `minLength`, and
truthiness rather than definedness tests). -/
def compactNestedObjLine (name : String) (ni : Info) : String :=
  let n := ni.attrs
  let l := "  - " ++ name ++ " (" ++ jsShow n.type
  let cs :=
    (if n.required then ["required"] else [])
    ++ (if truthyInt n.maxLength then ["max " ++ jsNumOr n.maxLength "" ++ " chars"] else [])
    ++ (if truthyInt n.minLength then ["min " ++ jsNumOr n.minLength "" ++ " chars"] else [])
    ++ (match n.enum with
        | some es => ["enum: [" ++ String.intercalate ", " es ++ "]"]
        | none => [])
  let l := if cs ≠ [] then l ++ ", " ++ String.intercalate ", " cs else l
  let l := match n.defaultValue with
    | some dv => l ++ ", default: " ++ jsonStringifyPrim dv
    | none => l
  l ++ ")"

/-- One line for a sub-field of an array of embedded objects
(`formatter.ts` lines 138-152). -/
def compactArrayNestedLine (name : String) (ni : Info) : String :=
  let n := ni.attrs
  let l := "    - " ++ name ++ " (" ++ jsShow n.type
  let cs :=
    (if n.required then ["required"] else [])
    ++ (if truthyStr n.ref then ["ref: " ++ jsShow n.ref] else [])
  let l := if cs ≠ [] then l ++ ", " ++ String.intercalate ", " cs else l
  l ++ ")"

/-- The lines emitted for one regular (non-dotted) field of the compact
renderer (`formatter.ts` lines 30-153). -/
def compactFieldLines (fieldName : String) (fi : Info) : List String :=
  let f := fi.attrs
  let typeStr :=
    match fi.items with
    | some it =>
      if f.type = some "Array" then
        "Array of " ++
          (if truthyStr it.attrs.ref then "ObjectId, ref: " ++ jsShow it.attrs.ref
           else jsShow it.attrs.type)
      else if truthyStr f.ref then "ObjectId, ref: " ++ jsShow f.ref
      else jsShow f.type
    | none =>
      if truthyStr f.ref then "ObjectId, ref: " ++ jsShow f.ref
      else jsShow f.type
  let line := "- " ++ fieldName ++ " (" ++ typeStr
  let cs := compactConstraints f
  let line := if cs ≠ [] then line ++ ", " ++ String.intercalate ", " cs else line
  let line := match f.defaultValue with
    | some dv => line ++ ", default: " ++ compactDefaultStr dv
    | none => line
  let line := line ++ ")"
  let nestedLines :=
    match fi.properties with
    | some ps =>
      if f.type = some "Object" && !f.circular then
        ps.map (fun p => compactNestedObjLine p.1 p.2)
      else []
    | none => []
  let arrayLines :=
    match fi.items with
    | some it =>
      if f.type = some "Array" && it.attrs.type = some "Object" then
        match it.properties with
        | some ps => "  Array contains:" :: ps.map (fun p => compactArrayNestedLine p.1 p.2)
        | none => []
      else []
    | none => []
  line :: (nestedLines ++ arrayLines)

/-- Append an entry to a nested-field group, creating the group on first
use (JS `if (!nestedGroups[p]) nestedGroups[p] = []; push`). -/
def pushGroup : List (String × List (String × Info)) → String → (String × Info) →
    List (String × List (String × Info))
  | [], p, e => [(p, [e])]
  | (k, es) :: rest, p, e =>
    if k = p then (k, es ++ [e]) :: rest else (k, es) :: pushGroup rest p e

/-- One line for a child of a synthesized dotted-name group
(`formatter.ts` lines 159-179). -/
def compactGroupChildLine (name : String) (ni : Info) : String :=
  let f := ni.attrs
  let l := "  - " ++ name ++ " (" ++ jsShow f.type
  let cs :=
    (if f.required then ["required"] else [])
    ++ (if f.unique then ["unique"] else [])
    ++ (if truthyStr f.ref then ["ref: " ++ jsShow f.ref] else [])
    ++ (match f.enum with
        | some es => ["enum: [" ++ String.intercalate ", " es ++ "]"]
        | none => [])
  let l := if cs ≠ [] then l ++ ", " ++ String.intercalate ", " cs else l
  let l := match f.defaultValue with
    | some dv => l ++ ", default: " ++ jsonStringifyPrim dv
    | none => l
  l ++ ")"

/-- `formatCompact`: the compact annotated-bullet renderer. -/
def formatCompact (schemas : List (String × ModelSchema)) : String :=
  let lines := schemas.foldl (fun lines ms =>
    let fields := ms.2.asFields
    let gr := fields.foldl
      (fun (acc : List (String × List (String × Info)) × List (String × Info)) f =>
        if f.1.data.contains '.' then
          let parts := (splitParts '.' f.1.data).map String.mk
          let parent := parts.headD ""
          let child := String.intercalate "." parts.tail
          (pushGroup acc.1 parent (child, f.2), acc.2)
        else (acc.1, acc.2 ++ [f]))
      ([], [])
    let lines := lines ++ ["**" ++ ms.1 ++ "**"]
    let lines := gr.2.foldl (fun ls f => ls ++ compactFieldLines f.1 f.2) lines
    let lines := gr.1.foldl (fun ls g =>
      ls ++ (("- " ++ g.1 ++ " (Object)") :: g.2.map (fun c => compactGroupChildLine c.1 c.2)))
      lines
    lines ++ [""]) []
  trimStr (String.intercalate "\n" lines)

/-- `formatHuman`: the verbose per-field report renderer. -/
def formatHuman (schemas : List (String × ModelSchema)) : String :=
  schemas.foldl (fun out ms =>
    let out := out ++ "📋 " ++ ms.1 ++ " Model\n"
    let out := out ++ String.mk (List.replicate 40 '-') ++ "\n"
    let out := ms.2.asFields.foldl (fun out f =>
      let i := f.2.attrs
      let out := out ++ "  " ++ f.1 ++ ":\n"
      let out := out ++ "    Type: " ++ jsShow i.type ++ "\n"
      let out := if i.required then out ++ "    Required: Yes\n" else out
      let out := if i.unique then out ++ "    Unique: Yes\n" else out
      let out := if truthyStr i.ref then out ++ "    References: " ++ jsShow i.ref ++ "\n" else out
      let out := match i.enum with
        | some es => out ++ "    Allowed Values: " ++ String.intercalate ", " es ++ "\n"
        | none => out
      let out :=
        if i.min.isSome || i.max.isSome then
          out ++ "    Range: " ++ jsNumOr i.min "N/A" ++ " - " ++ jsNumOr i.max "N/A" ++ "\n"
        else out
      let out :=
        if truthyInt i.minLength || truthyInt i.maxLength then
          out ++ "    Length: " ++ jsNumOr i.minLength "0" ++ " - "
            ++ jsNumOr i.maxLength "unlimited" ++ "\n"
        else out
      let out := match i.defaultValue with
        | some dv => out ++ "    Default: " ++ jsonStringifyPrim dv ++ "\n"
        | none => out
      let out := match f.2.properties with
        | some ps => out ++ "    Nested Fields: "
            ++ String.intercalate ", " (ps.map (fun p => p.1)) ++ "\n"
        | none => out
      let out := if i.circular then out ++ "    ⚠️  Circular Reference Detected\n" else out
      out ++ "\n") out
    out ++ "\n") ""

/-- `TYPESCRIPT_TYPE_MAP[type] || 'any'` from `src/lib/constants.ts`. -/
def tsTypeLookup (t : Option String) : String :=
  match t with
  | some "String" => "string"
  | some "Number" => "number"
  | some "Boolean" => "boolean"
  | some "Date" => "Date"
  | some "ObjectId" => "string"
  | some "Decimal128" => "Decimal"
  | some "Buffer" => "Buffer"
  | some "Mixed" => "any"
  | some "Virtual" => "any"
  | _ => "any"

/-- `GRAPHQL_TYPE_MAP[type] || 'JSON'` from `src/lib/constants.ts`. -/
def gqlTypeLookup (t : Option String) : String :=
  match t with
  | some "String" => "String"
  | some "Number" => "Float"
  | some "Boolean" => "Boolean"
  | some "Date" => "DateTime"
  | some "ObjectId" => "ID"
  | some "Decimal128" => "Decimal"
  | some "Buffer" => "String"
  | some "Mixed" => "JSON"
  | some "Virtual" => "String"
  | _ => "JSON"

/-- The enum-to-union step of `mapToTypeScriptType`: a union of quoted
literal values when `enum` is present, the running type otherwise. -/
def tsEnumOr (e : Option (List String)) (d : String) : String :=
  match e with
  | some es => String.intercalate " | " (es.map (fun v => "\x27" ++ v ++ "\x27"))
  | none => d

mutual

/-- `mapToTypeScriptType` from `src/lib/formatter.ts`. -/
def mapToTypeScriptType : Info → String
  | .node a items props _ =>
    let ts := tsTypeLookup a.type
    let ts := tsEnumOr a.enum ts
    let ts :=
      if a.type = some "Array" then
        (match items with
         | some it => mapToTypeScriptType it
         | none => "any") ++ "[]"
      else ts
    let ts :=
      match props with
      | some ps =>
        if a.type = some "Object" then
          if a.circular then "any " ++ "/" ++ "* circular reference *" ++ "/"
          else "\x7b " ++ String.intercalate "; " (tsPropLines ps) ++ " \x7d"
        else ts
      | none => ts
    if truthyStr a.ref then "string | I" ++ jsShow a.ref else ts

/-- The member lines of an inline structural literal. -/
def tsPropLines : List (String × Info) → List String
  | [] => []
  | p :: rest =>
    (p.1 ++ (if p.2.attrs.required then "" else "?") ++ ": " ++ mapToTypeScriptType p.2)
      :: tsPropLines rest

end

/-- `mapToGraphQLType` from `src/lib/formatter.ts`. -/
def mapToGraphQLType : Info → String
  | .node a items _ _ =>
    let g := gqlTypeLookup a.type
    let g :=
      if a.type = some "Array" then
        "[" ++ (match items with
                | some it => mapToGraphQLType it
                | none => "JSON") ++ "]"
      else g
    let g := if truthyStr a.ref then jsShow a.ref else g
    if a.circular then "JSON" else g

/-- `formatTypeScript`: the interface-declarations renderer. -/
def formatTypeScript (schemas : List (String × ModelSchema)) : String :=
  schemas.foldl (fun out ms =>
    let out := out ++ "export interface I" ++ ms.1 ++ " \x7b\n"
    let out := ms.2.asFields.foldl (fun out f =>
      let req := if f.2.attrs.required then "" else "?"
      out ++ "  " ++ f.1 ++ req ++ ": " ++ mapToTypeScriptType f.2 ++ ";\n") out
    out ++ "\x7d\n\n") ""

/-- `formatGraphQL`: the graph-schema renderer. -/
def formatGraphQL (schemas : List (String × ModelSchema)) : String :=
  schemas.foldl (fun out ms =>
    let out := out ++ "type " ++ ms.1 ++ " \x7b\n"
    let out := ms.2.asFields.foldl (fun out f =>
      let req := if f.2.attrs.required then "!" else ""
      out ++ "  " ++ f.1 ++ ": " ++ mapToGraphQLType f.2 ++ req ++ "\n") out
    out ++ "\x7d\n\n") ""

/-! ## Top-level API (`src/index.ts`) -/

/-- `ExtractOptions` with the defaults applied by the spread in
`extractSchemas` (a field the caller omits takes the default). -/
structure ExtractOptions where
  format : Option String := some "json"
  includeList : List String := ["defaults", "validators", "timestamps", "virtuals", "indexes"]
  exclude : List String := []
  depth : Nat := 10

/-- The `includeFlags` computation of `extractSchemas`
(`src/index.ts` lines 58-66). -/
def mkIncludeFlags (o : ExtractOptions) : WalkOpts :=
  { includeId := o.includeList.contains "id" || !(o.exclude.contains "id"),
    includeTimestamps := o.includeList.contains "timestamps" && !(o.exclude.contains "timestamps"),
    includeVirtuals := o.includeList.contains "virtuals" && !(o.exclude.contains "virtuals"),
    includeIndexes := o.includeList.contains "indexes" && !(o.exclude.contains "indexes"),
    includeValidators := o.includeList.contains "validators" && !(o.exclude.contains "validators"),
    includeDefaults := o.includeList.contains "defaults" && !(o.exclude.contains "defaults"),
    depth := o.depth }

/-- The extraction loop of `extractSchemas`: one shared visited set is
threaded across all models; models without a schema are skipped. -/
def extractAllModels (store : Store) (models : List (String × MModel))
    (flags : WalkOpts) : List (String × ModelSchema) :=
  (models.foldl (fun (acc : List (String × ModelSchema) × List Nat) m =>
    match m.2.schemaId with
    | none => acc
    | some sid =>
      let r := extractCompleteMongooseSchema sid flags acc.2 store
      (jsSet acc.1 m.1 r.1, r.2)) ([], [])).1

/-- The result of the top-level API: the raw mapping or a rendered string. -/
inductive FmtResult where
  | raw (m : List (String × ModelSchema))
  | text (s : String)

/-- `formatSchemas(schemas, format)` (`src/index.ts` lines 85-97): lookup
in the formatter table by the lower-cased name, falling back to the
JSON renderer. -/
def formatSchemas (schemas : List (String × ModelSchema)) (format : String) : FmtResult :=
  let key := toLowerStr format
  if key = "json" then .raw (formatJSON schemas)
  else if key = "compact" then .text (formatCompact schemas)
  else if key = "llm-compact" then .text (formatCompact schemas)
  else if key = "human" then .text (formatHuman schemas)
  else if key = "typescript" then .text (formatTypeScript schemas)
  else if key = "graphql" then .text (formatGraphQL schemas)
  else .raw (formatJSON schemas)

/-- `extractSchemas(input, options)` with the model registry already
normalized (`src/index.ts` lines 24-83). -/
def extractSchemas (store : Store) (models : List (String × MModel))
    (options : ExtractOptions) : FmtResult :=
  let flags := mkIncludeFlags options
  let schemas := extractAllModels store models flags
  match options.format with
  | none => .raw schemas
  | some f => if f = "" || f = "raw" then .raw schemas else formatSchemas schemas f

/-! ## Derived accessors and concrete fixtures -/

/-- The text of a rendered result (renderers under test always return text). -/
def textOf : FmtResult → String
  | .text s => s
  | .raw _ => ""

/-- The raw mapping of an unrendered result. -/
def rawOf : FmtResult → List (String × ModelSchema)
  | .raw m => m
  | .text _ => []

/-- The field mapping extracted for one model of a raw result. -/
def modelFieldsAt (r : List (String × ModelSchema)) (name : String) : List (String × Info) :=
  match lookupKey r name with
  | some (.fields fs) => fs
  | _ => []

mutual

/-- The structural invariant that a descriptor whose `circular` flag is
set carries no `properties`, checked hereditarily. -/
def infoOk : Info → Bool
  | .node a items props vals =>
    (!a.circular || props.isNone)
    && (match items with
        | some i => infoOk i
        | none => true)
    && (match props with
        | some ps => infoListOk ps
        | none => true)
    && (match vals with
        | some v => infoOk v
        | none => true)

def infoListOk : List (String × Info) → Bool
  | [] => true
  | p :: rest => infoOk p.2 && infoListOk rest

end

/-- A plain `String` schema type with the given options and enum values. -/
def stringST (o : STOptions := {}) (ev : List String := []) : SchemaType :=
  .mk (some "String") o ev false [] none none none

/-- An `ObjectId` schema type with a `ref`. -/
def oidRefST (r : String) : SchemaType :=
  .mk (some "ObjectId") { ref := some r } [] false [] none none none

/-- An `Array` schema type whose caster is an `ObjectId` reference. -/
def arrayOfRefST (r : String) : SchemaType :=
  .mk (some "Array") {} [] false [] (some (oidRefST r)) none none

/-- An embedded-document schema type pointing at the schema object `sid`. -/
def embeddedST (sid : Nat) : SchemaType :=
  .mk (some "Embedded") {} [] false [] none (some sid) none

/-- One model, one reference field: the C2 reference-resolution scenario. -/
def blogStore : Store := [(0, { paths := [("post", oidRefST "Post")] })]

def blogModels : List (String × MModel) := [("Blog", { schemaId := some 0 })]

def blogCompact : String :=
  textOf (extractSchemas blogStore blogModels { format := some "compact" })

def blogTS : String :=
  textOf (extractSchemas blogStore blogModels { format := some "typescript" })

def blogGQL : String :=
  textOf (extractSchemas blogStore blogModels { format := some "graphql" })

/-- The C6 `User` scenario: username/email/role/posts. -/
def userStore : Store :=
  [(0, { paths := [
      ("username", stringST { required := true, unique := true,
                              minlength := some 3, maxlength := some 30 }),
      ("email", stringST { required := true, unique := true, lowercase := true }),
      ("role", stringST { defaultVal := some (.strVal "user") } ["user", "admin"]),
      ("posts", arrayOfRefST "Post") ] })]

def userModels : List (String × MModel) := [("User", { schemaId := some 0 })]

def userCompact : String :=
  textOf (extractSchemas userStore userModels { format := some "compact" })

/-- A schema whose embedded sub-document schema is itself (direct cycle). -/
def cycStore : Store := [(0, { paths := [("self", embeddedST 0)] })]

/-- Two registered models sharing one underlying schema object. -/
def sharedStore : Store := [(0, { paths := [("x", stringST)] })]

def sharedModels : List (String × MModel) :=
  [("A", { schemaId := some 0 }), ("B", { schemaId := some 0 })]

/-- A schema with timestamp tracking and an explicitly declared
`createdAt` string field (overwritten by the timestamp descriptor). -/
def tsStore : Store :=
  [(0, { paths := [("createdAt", stringST)], timestamps := true })]

/-- A schema carrying an `_id` path, for the identity-field default. -/
def idStore : Store :=
  [(0, { paths := [("_id", .mk (some "ObjectId") {} [] false [] none none none),
                   ("name", stringST)] })]

def idModels : List (String × MModel) := [("M", { schemaId := some 0 })]

/-- A field descriptor with no attributes at all (no `type`). -/
def bareInfo : Info := Info.node {} none none none

/-! ## Lemmas -/

theorem applyCommon_circular (st : SchemaType) (o : WalkOpts) (a : Attrs) :
    (applyCommonOptions st o a).circular = a.circular := rfl

theorem applyCommon_propertyCount (st : SchemaType) (o : WalkOpts) (a : Attrs) :
    (applyCommonOptions st o a).propertyCount = a.propertyCount := rfl

theorem lookupKey_jsSet_same {α : Type} (m : List (String × α)) (k : String) (v : α) :
    lookupKey (jsSet m k v) k = some v := by
  induction m with
  | nil => simp [jsSet, lookupKey]
  | cons p rest ih =>
    by_cases h : p.1 = k
    · simp [jsSet, h, lookupKey]
    · simpa [jsSet, h, lookupKey, List.find?] using ih

theorem lookupKey_jsSet_other {α : Type} (m : List (String × α)) (k k' : String) (v : α)
    (h : k ≠ k') : lookupKey (jsSet m k' v) k = lookupKey m k := by
  have hbe : (k' == k) = false := beq_eq_false_iff_ne.mpr (Ne.symm h)
  induction m with
  | nil => simp [jsSet, lookupKey, List.find?, hbe]
  | cons p rest ih =>
    obtain ⟨k0, v0⟩ := p
    by_cases hp : k0 = k'
    · have hpk : (k0 == k) = false := by
        rw [hp]; exact hbe
      simp [jsSet, hp, lookupKey, List.find?, hbe, hpk]
    · by_cases hk : k0 = k
      · have hpk : (k0 == k) = true := beq_iff_eq.mpr hk
        simp [jsSet, hp, lookupKey, List.find?, hpk]
      · have hpk : (k0 == k) = false := beq_eq_false_iff_ne.mpr hk
        simpa [jsSet, hp, lookupKey, List.find?, hpk] using ih

theorem fuelFor_pos (o : WalkOpts) (d : Nat) : 1 ≤ fuelFor o d :=
  Nat.le_max_left 1 _

theorem fuelFor_succ_le (o : WalkOpts) (depth k : Nat) (hd : ¬ depth > effDepth o)
    (h : fuelFor o depth ≤ k + 1) : fuelFor o (depth + 1) ≤ k := by
  unfold fuelFor at h ⊢
  rw [Nat.max_le] at h ⊢
  omega

set_option maxHeartbeats 2000000 in
theorem extractPathInfoF_fuel_irrel :
    ∀ (f₁ f₂ : Nat) (store : Store) (opts : WalkOpts) (st : SchemaType) (name : String)
      (depth : Nat) (vis : List Nat),
      fuelFor opts depth ≤ f₁ → fuelFor opts depth ≤ f₂ →
      extractPathInfoF store opts f₁ st name depth vis
        = extractPathInfoF store opts f₂ st name depth vis := by
  intro f₁
  induction f₁ using Nat.strong_induction_on with
  | _ f₁ IH =>
    intro f₂ store opts st name depth vis h₁ h₂
    obtain ⟨k₁, rfl⟩ : ∃ k, f₁ = k + 1 := by
      have := fuelFor_pos opts depth
      exact ⟨f₁ - 1, by omega⟩
    obtain ⟨k₂, rfl⟩ : ∃ k, f₂ = k + 1 := by
      have := fuelFor_pos opts depth
      exact ⟨f₂ - 1, by omega⟩
    by_cases hd : depth > effDepth opts
    · rw [extractPathInfoF.eq_2, extractPathInfoF.eq_2, if_pos hd, if_pos hd]
    · have hP : ∀ st2 nm2 vis2,
          extractPathInfoF store opts k₁ st2 nm2 (depth + 1) vis2
            = extractPathInfoF store opts k₂ st2 nm2 (depth + 1) vis2 :=
        fun st2 nm2 vis2 =>
          IH k₁ (Nat.lt_succ_self _) k₂ store opts st2 nm2 (depth + 1) vis2
            (fuelFor_succ_le opts depth k₁ hd h₁) (fuelFor_succ_le opts depth k₂ hd h₂)
      rw [extractPathInfoF.eq_2, extractPathInfoF.eq_2, if_neg hd, if_neg hd]
      exact congrArg (pathInfoCases store opts st vis)
        (funext fun a => funext fun b => funext fun c => hP a b c)

theorem infoOk_withRef (i : Info) (r : Option String) :
    infoOk (i.withRef r) = infoOk i := by
  cases i
  rw [Info.withRef, infoOk.eq_def, infoOk.eq_def]

theorem infoListOk_append (xs ys : List (String × Info)) :
    infoListOk (xs ++ ys) = (infoListOk xs && infoListOk ys) := by
  induction xs with
  | nil => simp [infoListOk]
  | cons p rest ih => simp [infoListOk, ih, Bool.and_assoc]

theorem nestedFold_ok (wopts : WalkOpts)
    (rec1 : SchemaType → String → List Nat → Info × List Nat)
    (hI : ∀ st2 nm2 vis2, infoOk (rec1 st2 nm2 vis2).1 = true) :
    ∀ (paths : List (String × SchemaType)) (acc : List (String × Info) × List Nat),
      infoListOk acc.1 = true →
      infoListOk ((paths.foldl (nestedStep wopts rec1) acc).1) = true := by
  intro paths
  induction paths with
  | nil => intro acc h; simpa using h
  | cons p rest ih =>
    intro acc h
    rw [List.foldl_cons]
    apply ih
    unfold nestedStep
    split
    · exact h
    · split
      · exact h
      · simp [infoListOk_append, h, infoListOk, hI p.2 p.1 acc.2]

theorem pathInfoCases_ok (store : Store) (wopts : WalkOpts) (st : SchemaType) (vis : List Nat)
    (rec1 : SchemaType → String → List Nat → Info × List Nat)
    (hI : ∀ st2 nm2 vis2, infoOk (rec1 st2 nm2 vis2).1 = true) :
    infoOk (pathInfoCases store wopts st vis rec1).1 = true := by
  unfold pathInfoCases
  cases hins : (if st.instanceN = some "ObjectID" then some "ObjectId" else st.instanceN) with
  | none => simp [infoOk]
  | some ty =>
    by_cases h1 : ty = "String"
    · simp [h1, infoOk]
    by_cases h2 : ty = "Number"
    · simp [h1, h2, infoOk]
    by_cases h3 : ty = "Date"
    · simp [h1, h2, h3, infoOk]
    by_cases h4 : ty = "Boolean"
    · simp [h1, h2, h3, h4, infoOk]
    by_cases h5 : ty = "ObjectId"
    · simp [h1, h2, h3, h4, h5, infoOk]
    by_cases h6 : ty = "Decimal128"
    · simp [h1, h2, h3, h4, h5, h6, infoOk]
    by_cases h7 : ty = "Buffer"
    · simp [h1, h2, h3, h4, h5, h6, h7, infoOk]
    by_cases h8 : ty = "Mixed"
    · simp [h1, h2, h3, h4, h5, h6, h7, h8, infoOk]
    by_cases h9 : ty = "Array"
    · simp only [h1, h2, h3, h4, h5, h6, h7, h8, h9, if_true, if_false]
      cases st.caster with
      | none => simp [infoOk]
      | some item =>
        simp only [infoOk]
        split
        · rw [infoOk_withRef]
          simp [hI item "" vis, infoOk]
        · simp [hI item "" vis, infoOk]
    by_cases h10 : ty = "Embedded" ∨ ty = "Document"
    · simp only [h1, h2, h3, h4, h5, h6, h7, h8, h9, h10, if_true, if_false]
      split
      · rename_i x sid heq
        split
        · simp [infoOk]
        · have hfold := nestedFold_ok wopts rec1 hI (storeGet store sid).paths
            ([], sid :: vis) rfl
          simp [infoOk, hfold, applyCommon_circular]
      · simp [infoOk]
    by_cases h11 : ty = "Map"
    · simp only [h1, h2, h3, h4, h5, h6, h7, h8, h9, h10, h11, if_true, if_false]
      cases st.valueType with
      | none => simp [infoOk]
      | some vt => simp [infoOk, hI vt "" vis]
    · simp [h1, h2, h3, h4, h5, h6, h7, h8, h9, h10, h11, infoOk]

theorem extractPathInfoF_ok (fuel : Nat) :
    ∀ (store : Store) (opts : WalkOpts) (st : SchemaType) (name : String)
      (depth : Nat) (vis : List Nat),
      infoOk (extractPathInfoF store opts fuel st name depth vis).1 = true := by
  induction fuel with
  | zero =>
    intro store opts st name depth vis
    rw [extractPathInfoF.eq_1]
    rfl
  | succ k ih =>
    intro store opts st name depth vis
    rw [extractPathInfoF.eq_2]
    by_cases hd : depth > effDepth opts
    · rw [if_pos hd]; rfl
    · rw [if_neg hd]
      exact pathInfoCases_ok store opts st vis _
        (fun st2 nm2 vis2 => ih store opts st2 nm2 (depth + 1) vis2)

/-! ## Claims -/

/-- C1 (counterexample): the claim says that with `depth = 0` any field at
recursion depth greater than 0 resolves to the Mixed/truncation descriptor.
In the code the bound is `options.depth || 10`, and `0` is falsy in JS, so a
zero depth option yields an effective bound of 10: at depth 1 a plain
String field is extracted normally, not truncated. -/
theorem c1_depth_zero_counterexample :
    ((extractCompletePathInfo stringST "field" 1 { depth := 0 } [] []).1).attrs.type
        = some "String"
    ∧ ((extractCompletePathInfo stringST "field" 1 { depth := 0 } [] []).1).attrs.note = none :=
  ⟨rfl, rfl⟩

/-- C1 (amended): whenever the current depth exceeds the effective bound
`effDepth` — `options.depth` if nonzero, else 10 — `extractCompletePathInfo`
returns `{type: Mixed, note: 'Max depth reached'}` with the visited set
untouched and no recursion; in particular with `depth = 0` truncation
happens beyond depth 10, not beyond depth 0. -/
theorem c1_depth_guard_amended :
    ∀ (st : SchemaType) (name : String) (depth : Nat) (opts : WalkOpts)
      (vis : List Nat) (store : Store),
      depth > effDepth opts →
      extractCompletePathInfo st name depth opts vis store
        = (Info.node { type := some "Mixed", note := some "Max depth reached" } none none none,
            vis) := by
  intro st name depth opts vis store hd
  obtain ⟨k, hk⟩ : ∃ k, fuelFor opts depth = k + 1 := by
    have := fuelFor_pos opts depth
    exact ⟨fuelFor opts depth - 1, by omega⟩
  rw [extractCompletePathInfo, hk, extractPathInfoF.eq_2, if_pos hd]

/-- C1 (witness): the amended guard fires at depth 11 under a zero depth
option. -/
theorem c1_depth_guard_amended_witness :
    11 > effDepth ({ depth := 0 } : WalkOpts)
    ∧ extractCompletePathInfo stringST "field" 11 { depth := 0 } [] []
        = (Info.node { type := some "Mixed", note := some "Max depth reached" } none none none,
            []) :=
  ⟨by decide, c1_depth_guard_amended stringST "field" 11 { depth := 0 } [] [] (by decide)⟩

set_option maxRecDepth 20000 in
/-- C2 (counterexample): the claim says the compact renderer labels a
reference field `ObjectReference, ref: Post`; the renderer actually emits
`ObjectId, ref: Post`, and the claimed label never occurs in the output. -/
theorem c2_compact_label_counterexample :
    strContains blogCompact "ObjectReference, ref: Post" = false := rfl

set_option maxRecDepth 20000 in
/-- C2 (amended): for a field declared as a reference to model `Post`, the
compact renderer yields the type label `ObjectId, ref: Post` (not
`ObjectReference, ref: Post`), the TypeScript renderer yields member type
`string | IPost`, and the GraphQL renderer yields type `Post`. -/
theorem c2_reference_rendering_amended :
    blogCompact = "**Blog**\n- post (ObjectId, ref: Post)"
    ∧ blogTS = "export interface IBlog \x7b\n  post?: string | IPost;\n\x7d\n\n"
    ∧ blogGQL = "type Blog \x7b\n  post: Post\n\x7d\n\n" :=
  ⟨rfl, rfl, rfl⟩

/-- C3: extraction terminates on every finite registry, cyclic ones
included: the walk is insensitive to any fuel at least `fuelFor` — the
depth guard bounds every recursion chain — so `extractCompletePathInfo`
computes the fixpoint in bounded steps; and for a registry whose schema
embeds itself directly, the cyclic field comes back `circular`-flagged. -/
theorem c3_termination_and_cycles :
    (∀ (fuel : Nat) (store : Store) (opts : WalkOpts) (st : SchemaType) (name : String)
       (depth : Nat) (vis : List Nat),
       fuelFor opts depth ≤ fuel →
       extractPathInfoF store opts fuel st name depth vis
         = extractCompletePathInfo st name depth opts vis store)
    ∧ (∃ fs fi, (extractCompleteMongooseSchema 0 {} [] cycStore).1 = .fields fs
        ∧ lookupKey fs "self" = some fi ∧ fi.attrs.circular = true) := by
  constructor
  · intro fuel store opts st name depth vis h
    exact extractPathInfoF_fuel_irrel fuel (fuelFor opts depth) store opts st name depth vis
      h (le_refl _)
  · exact ⟨_, _, rfl, rfl, rfl⟩

/-- C3 (witness): fuel 20 exceeds the bound for a walk from depth 0 under
default options, and the run on the self-referential schema agrees with the
canonical one. -/
theorem c3_termination_and_cycles_witness :
    fuelFor ({} : WalkOpts) 0 ≤ 20
    ∧ extractPathInfoF cycStore {} 20 (embeddedST 0) "self" 0 []
        = extractCompletePathInfo (embeddedST 0) "self" 0 {} [] cycStore :=
  ⟨by decide, c3_termination_and_cycles.1 20 cycStore {} (embeddedST 0) "self" 0 [] (by decide)⟩

/-- C4: the identity-field inclusion flag equals "include lists id OR
exclude does not list id"; with an empty exclude list the flag is true for
every include list, so `_id` is extracted by default even when the caller
only asks for unrelated inclusions. -/
theorem c4_include_id_flag :
    (∀ (o : ExtractOptions),
       (mkIncludeFlags o).includeId
         = (o.includeList.contains "id" || !(o.exclude.contains "id")))
    ∧ (∀ inc : List String,
       (mkIncludeFlags { includeList := inc, exclude := [] }).includeId = true)
    ∧ (lookupKey (modelFieldsAt
         (rawOf (extractSchemas idStore idModels { includeList := ["defaults"] })) "M")
         "_id").isSome = true := by
  refine ⟨fun o => rfl, fun inc => ?_, rfl⟩
  simp [mkIncludeFlags]

/-- C5: whenever the schema declares timestamp tracking and the
`includeTimestamps` flag is set, the extracted mapping binds `createdAt`
and `updatedAt` to `{type: Date, auto: true}` — the assignment overwrites
whatever an explicit field declaration of the same name produced earlier
(no merge). -/
theorem c5_timestamps_overwrite :
    ∀ (sid : Nat) (opts : WalkOpts) (vis : List Nat) (store : Store),
      opts.includeTimestamps = true →
      (storeGet store sid).timestamps = true →
      vis.contains sid = false →
      ∃ fs, (extractCompleteMongooseSchema sid opts vis store).1 = .fields fs
        ∧ lookupKey fs "createdAt" = some tsAutoInfo
        ∧ lookupKey fs "updatedAt" = some tsAutoInfo := by
  intro sid opts vis store ht hs hv
  unfold extractCompleteMongooseSchema
  simp only [hv, Bool.false_eq_true, if_false, ht, hs, Bool.and_self, if_true]
  refine ⟨_, rfl, ?_, ?_⟩
  · rw [lookupKey_jsSet_other _ _ _ _ (by decide), lookupKey_jsSet_same]
  · rw [lookupKey_jsSet_same]

/-- C5 (witness): a schema declaring timestamps and an explicit `createdAt`
String field extracts `createdAt` as the Date/auto descriptor — the later
assignment wins. -/
theorem c5_timestamps_overwrite_witness :
    ({ includeTimestamps := true } : WalkOpts).includeTimestamps = true
    ∧ (storeGet tsStore 0).timestamps = true
    ∧ ([] : List Nat).contains 0 = false
    ∧ ∃ fs, (extractCompleteMongooseSchema 0 { includeTimestamps := true } [] tsStore).1
          = .fields fs
        ∧ lookupKey fs "createdAt" = some tsAutoInfo
        ∧ lookupKey fs "updatedAt" = some tsAutoInfo :=
  ⟨rfl, rfl, rfl, c5_timestamps_overwrite 0 { includeTimestamps := true } [] tsStore rfl rfl rfl⟩

set_option maxRecDepth 20000 in
/-- C6 (counterexample): the claim expects the substring
`posts (ObjectReference, ref: Post)` (or an array-labelled equivalent using
that type name); the compact output of the `User` scenario never contains
`ObjectReference` at all. -/
theorem c6_user_compact_counterexample :
    strContains userCompact "ObjectReference" = false := rfl

set_option maxRecDepth 20000 in
/-- C6 (amended): the `User` model, extracted with default options and
rendered compact, consists of a `**User**` heading followed by exactly the
claimed username/email/role lines — constraints in the fixed order
required, unique, ..., `3-30 chars` — and the posts line labelled
`Array of ObjectId, ref: Post` (the code's reference label is `ObjectId`,
not `ObjectReference`). -/
theorem c6_user_compact_amended :
    userCompact
      = "**User**\n- username (String, required, unique, 3-30 chars)\n- email (String, required, unique, lowercase)\n- role (String, enum: [user, admin], default: user)\n- posts (Array of ObjectId, ref: Post)" :=
  rfl

set_option maxHeartbeats 1000000 in
/-- C7: every descriptor the walker produces satisfies, hereditarily, that
a set `circular` flag comes with no `properties` (`infoOk`); and for an
embedded/document field with an attached schema at an admissible depth:
if the schema is already visited the result is `circular = true` with
`properties` omitted, otherwise `properties` is present with
`propertyCount` equal to its length and no `circular` flag. -/
theorem c7_circular_no_properties :
    (∀ (st : SchemaType) (name : String) (depth : Nat) (opts : WalkOpts)
       (vis : List Nat) (store : Store),
       infoOk (extractCompletePathInfo st name depth opts vis store).1 = true)
    ∧ (∀ (st : SchemaType) (name : String) (depth : Nat) (opts : WalkOpts)
         (vis : List Nat) (store : Store) (sid : Nat),
         (st.instanceN = some "Embedded" ∨ st.instanceN = some "Document") →
         st.schemaRef = some sid →
         ¬ depth > effDepth opts →
         (vis.contains sid = true →
            ((extractCompletePathInfo st name depth opts vis store).1).attrs.circular = true
              ∧ ((extractCompletePathInfo st name depth opts vis store).1).properties = none)
           ∧ (vis.contains sid = false →
              ∃ ps, ((extractCompletePathInfo st name depth opts vis store).1).properties
                      = some ps
                ∧ ((extractCompletePathInfo st name depth opts vis store).1).attrs.propertyCount
                    = some ps.length
                ∧ ((extractCompletePathInfo st name depth opts vis store).1).attrs.circular
                    = false)) := by
  constructor
  · intro st name depth opts vis store
    exact extractPathInfoF_ok (fuelFor opts depth) store opts st name depth vis
  · intro st name depth opts vis store sid hemb hsr hd
    obtain ⟨k, hk⟩ : ∃ k, fuelFor opts depth = k + 1 := by
      have := fuelFor_pos opts depth
      exact ⟨fuelFor opts depth - 1, by omega⟩
    have hred : extractCompletePathInfo st name depth opts vis store
        = pathInfoCases store opts st vis
            (fun st2 nm2 vis2 => extractPathInfoF store opts k st2 nm2 (depth + 1) vis2) := by
      rw [extractCompletePathInfo, hk, extractPathInfoF.eq_2, if_neg hd]
    rw [hred]
    unfold pathInfoCases
    have hno : ¬ st.instanceN = some "ObjectID" := by
      rcases hemb with h | h <;> simp [h]
    rw [if_neg hno]
    rcases hemb with h | h <;> rw [h] <;> rw [hsr] <;>
      constructor <;> intro hc <;> simp only [hc] <;>
      simp [Info.attrs, Info.properties, applyCommon_circular, applyCommon_propertyCount]

/-- C7 (witness): the invariant holds on the self-referential scenario, and
the embedded branch flags the already-visited schema as circular with no
properties. -/
theorem c7_circular_no_properties_witness :
    infoOk (extractCompletePathInfo (embeddedST 0) "self" 0 {} [] cycStore).1 = true
    ∧ ((embeddedST 0).instanceN = some "Embedded" ∨ (embeddedST 0).instanceN = some "Document")
    ∧ (embeddedST 0).schemaRef = some 0
    ∧ ¬ (1 : Nat) > effDepth ({} : WalkOpts)
    ∧ ([0] : List Nat).contains 0 = true
    ∧ ((extractCompletePathInfo (embeddedST 0) "f" 1 {} [0] cycStore).1).attrs.circular = true
    ∧ ((extractCompletePathInfo (embeddedST 0) "f" 1 {} [0] cycStore).1).properties = none := by
  have h := (c7_circular_no_properties.2 (embeddedST 0) "f" 1 {} [0] cycStore 0
    (Or.inl rfl) rfl (by decide)).1 rfl
  exact ⟨c7_circular_no_properties.1 (embeddedST 0) "self" 0 {} [] cycStore,
    Or.inl rfl, rfl, by decide, rfl, h.1, h.2⟩

/-- C8: a format name outside the recognized set falls back to the
raw/default JSON renderer — the identity on the structured mapping — and
the top-level extraction then returns the extracted mapping itself rather
than throwing. -/
theorem c8_unknown_format_fallback :
    ∀ (schemas : List (String × ModelSchema)) (format : String),
      toLowerStr format ∉
          (["json", "compact", "llm-compact", "human", "typescript", "graphql"] : List String) →
      (formatSchemas schemas format = .raw (formatJSON schemas)
       ∧ formatJSON schemas = schemas
       ∧ ∀ (store : Store) (models : List (String × MModel)) (o : ExtractOptions),
           o.format = some format → ¬ format = "" → ¬ format = "raw" →
           extractSchemas store models o
             = .raw (extractAllModels store models (mkIncludeFlags o))) := by
  intro schemas format h
  simp only [List.mem_cons, List.not_mem_nil, or_false, not_or] at h
  obtain ⟨h1, h2, h3, h4, h5, h6⟩ := h
  have hfs : ∀ s : List (String × ModelSchema), formatSchemas s format = .raw (formatJSON s) := by
    intro s
    unfold formatSchemas
    rw [if_neg h1, if_neg h2, if_neg h3, if_neg h4, if_neg h5, if_neg h6]
  refine ⟨hfs schemas, rfl, ?_⟩
  intro store models o ho hne1 hne2
  simp only [extractSchemas, ho]
  rw [if_neg (by simp [hne1, hne2])]
  exact hfs _

/-- C8 (witness): the unrecognized name `yaml` falls back to the raw
mapping. -/
theorem c8_unknown_format_fallback_witness :
    toLowerStr "yaml" ∉
        (["json", "compact", "llm-compact", "human", "typescript", "graphql"] : List String)
    ∧ formatSchemas [] "yaml" = .raw (formatJSON [])
    ∧ extractSchemas blogStore blogModels { format := some "yaml" }
        = .raw (extractAllModels blogStore blogModels
            (mkIncludeFlags { format := some "yaml" })) := by
  have h : toLowerStr "yaml" ∉
      (["json", "compact", "llm-compact", "human", "typescript", "graphql"] : List String) := by
    decide
  have r := c8_unknown_format_fallback [] "yaml" h
  exact ⟨h, r.1, (c8_unknown_format_fallback [] "yaml" h).2.2 blogStore blogModels
    { format := some "yaml" } rfl (by decide) (by decide)⟩

set_option maxHeartbeats 2000000 in
set_option maxRecDepth 20000 in
/-- C9: the renderers are total functions on model-schema mappings and
tolerate a descriptor with no `type`: the TypeScript mapper falls back to
`any` and the GraphQL mapper to `JSON`; the compact and human renderers
emit the JS `undefined` token for the missing type instead of failing; the
raw renderer is the identity.  (Purity is intrinsic to the functional
embedding: no renderer can mutate its argument.) -/
theorem c9_renderers_total_fallback :
    (∀ fi : Info, fi.attrs.type = none → fi.attrs.enum = none → fi.attrs.ref = none →
       mapToTypeScriptType fi = "any" ∧ mapToGraphQLType fi = "JSON")
    ∧ strContains (formatCompact [("M", .fields [("f", bareInfo)])]) "- f (undefined)" = true
    ∧ strContains (formatHuman [("M", .fields [("f", bareInfo)])]) "Type: undefined" = true
    ∧ (∀ schemas, formatJSON schemas = schemas) := by
  refine ⟨?_, rfl, rfl, fun _ => rfl⟩
  intro fi ht he hr
  cases fi with
  | node a items props vals =>
    simp only [Info.attrs] at ht he hr
    constructor
    · cases items <;> cases props <;> rw [mapToTypeScriptType.eq_def] <;>
        simp [tsEnumOr, tsTypeLookup, truthyStr, ht, he, hr]
    · cases items <;> rw [mapToGraphQLType.eq_def] <;>
        simp [gqlTypeLookup, truthyStr, ht, hr]

/-- C9 (witness): the typeless descriptor maps to the fallback tokens. -/
theorem c9_renderers_total_fallback_witness :
    bareInfo.attrs.type = none ∧ bareInfo.attrs.enum = none ∧ bareInfo.attrs.ref = none
    ∧ mapToTypeScriptType bareInfo = "any" ∧ mapToGraphQLType bareInfo = "JSON" := by
  have h := c9_renderers_total_fallback.1 bareInfo rfl rfl rfl
  exact ⟨rfl, rfl, rfl, h.1, h.2⟩

/-- C10: one visited set is shared across all models of a single
`extractSchemas` call, and a model whose root schema is already visited
returns the root-level `{type: 'Circular'}` record with no fields; hence
of two registered models sharing one schema object, the second extracts to
the Circular root rather than to its field mapping. -/
theorem c10_shared_visited_circular :
    (∀ (sid : Nat) (opts : WalkOpts) (vis : List Nat) (store : Store),
       vis.contains sid = true →
       extractCompleteMongooseSchema sid opts vis store
         = (.circularRoot "Circular reference detected", vis))
    ∧ (∃ fsA, extractSchemas sharedStore sharedModels { format := none }
         = .raw [("A", .fields fsA), ("B", .circularRoot "Circular reference detected")]) := by
  constructor
  · intro sid opts vis store h
    unfold extractCompleteMongooseSchema
    simp only [h, if_true]
  · exact ⟨_, rfl⟩

/-- C10 (witness): a schema already in the visited set short-circuits to
the Circular root. -/
theorem c10_shared_visited_circular_witness :
    ([0] : List Nat).contains 0 = true
    ∧ extractCompleteMongooseSchema 0 {} [0] sharedStore
        = (.circularRoot "Circular reference detected", [0]) :=
  ⟨rfl, c10_shared_visited_circular.1 0 {} [0] sharedStore rfl⟩
